import Mathlib

set_option maxRecDepth 8000

/-!
Verification development for the Round1B section-extraction and ranking
pipeline.  Python strings are modelled as `List Char`, floating-point
scores as exact rationals (`ℚ`).  Each definition is a shallow embedding
of the correspondingly named Python function; consult the doc comments
for the source location.  Optional heavy NLP backends (spaCy, scikit-learn)
are external dependencies that are absent in the degraded extraction path;
the embeddings model the pure fallback paths that the code itself provides.
-/

/-- Python strings, modelled as lists of characters. -/
abbrev Str := List Char

/-- ASCII whitespace recognised by Python's `\s`, `str.strip()` and
`str.split()` (space, tab, newline, carriage return, vertical tab, form feed). -/
def isPyWs (c : Char) : Bool :=
  c = ' ' || c = '\t' || c = '\n' || c = '\r' || c = Char.ofNat 11 || c = Char.ofNat 12

/-- Python regex `\w`: letters, digits or underscore (ASCII). -/
def isWordChar (c : Char) : Bool :=
  c.isAlpha || c.isDigit || c = '_'

/-- Python `str.lower()` (ASCII case folding). -/
def lowerStr (s : Str) : Str := s.map Char.toLower

/-- Python `str.strip()`: drop leading and trailing whitespace. -/
def stripStr (s : Str) : Str :=
  ((s.dropWhile isPyWs).reverse.dropWhile isPyWs).reverse

/-- Python `str.split()` with no separator: split on whitespace runs,
discarding empty pieces. -/
def splitWs (s : Str) : List Str :=
  (s.splitOnP isPyWs).filter (fun w => !w.isEmpty)

/-- Helper for regex-style splitting on runs of separator characters:
`List.splitOnP` emits an empty chunk between two adjacent separators;
`re.split` with a `+`-quantified class does not.  This drops those interior
empties while keeping the final chunk (which `re.split` also keeps). -/
def dropInnerEmpties : List Str → List Str
  | [] => []
  | [x] => [x]
  | x :: rest => (if x.isEmpty then [] else [x]) ++ dropInnerEmpties rest

/-- Python `re.split(r'[.!?]+', s)`: split on maximal runs of
sentence-ending punctuation. -/
def reSplitSentences (s : Str) : List Str :=
  match s.splitOnP (fun c => c = '.' || c = '!' || c = '?') with
  | [] => []
  | x :: rest => x :: dropInnerEmpties rest

/-- Python `re.sub(r'\s+', ' ', s)`: collapse each maximal whitespace run
to a single space. -/
def collapseWsRuns (s : Str) : Str :=
  List.intercalate [' ']
    (match s.splitOnP isPyWs with
     | [] => []
     | x :: rest => x :: dropInnerEmpties rest)

/-- Python substring test `needle in hay`. -/
def containsSub (needle hay : Str) : Bool :=
  hay.tails.any (fun t => needle.isPrefixOf t)

/-- Python `re.findall(r'\b[a-zA-Z]{3,}\b', s)`.  A match is a maximal run
of word characters (`\w`) that consists solely of letters and has length at
least 3: the surrounding `\b` boundaries forbid an adjacent digit or
underscore, so mixed runs like `abc1` yield no token. -/
def wordTokens (s : Str) : List Str :=
  (s.splitOnP (fun c => !isWordChar c)).filter
    (fun r => r.all Char.isAlpha && decide (3 ≤ r.length))

/-- Python `s.rfind(c)`: highest index of `c` in `s`, `-1` when absent. -/
def rfindChar (s : Str) (c : Char) : Int :=
  match s.reverse.findIdx? (fun x => x = c) with
  | none => -1
  | some i => (s.length : Int) - 1 - i

/-- Round half to even on integers, the tie-breaking rule of Python's
built-in `round`. -/
def roundHalfEven (x : ℚ) : ℤ :=
  let f := ⌊x⌋
  if x - f < 1/2 then f
  else if 1/2 < x - f then f + 1
  else if f % 2 = 0 then f else f + 1

/-- Python `round(x, 3)`. -/
def round3 (x : ℚ) : ℚ := (roundHalfEven (x * 1000) : ℚ) / 1000

/-! ## Text analyzer (`src/text_analyzer.py`, class `TextAnalyzer`) -/

/-- TextAnalyzer._calculate_word_overlap: Jaccard similarity of the two
token sets (lines 204-215 of `src/src/text_analyzer.py`). -/
def calculateWordOverlap (text1 text2 : Str) : ℚ :=
  let words1 := (wordTokens (lowerStr text1)).toFinset
  let words2 := (wordTokens (lowerStr text2)).toFinset
  if words1 = ∅ ∨ words2 = ∅ then 0
  else
    let i := (words1 ∩ words2).card
    let u := (words1 ∪ words2).card
    if 0 < u then (i : ℚ) / u else 0

/-- TextAnalyzer._calculate_relevance: empty-argument guard, then the
lexical-overlap fallback (the TF-IDF backend is an optional external
dependency, absent in the degraded path the code itself falls back to). -/
def calculateRelevance (text referenceText : Str) : ℚ :=
  if text = [] ∨ referenceText = [] then 0
  else calculateWordOverlap text referenceText

/-- Section record as produced by segmentation: `{title, page, content}`. -/
structure Sectn where
  title : Str
  page : Nat
  content : Str
deriving DecidableEq, Repr

/-- Result of TextAnalyzer._analyze_section: the section decorated with
the three relevance scores. -/
structure AnalyzedSection where
  title : Str
  page : Nat
  content : Str
  persona_relevance : ℚ
  job_relevance : ℚ
  combined_relevance : ℚ
deriving DecidableEq, Repr

/-- TextAnalyzer._analyze_section (lines 94-123): score
`content + " " + title` against persona and job, combine with the fixed
0.4/0.6 weights. -/
def analyzeSection (s : Sectn) (persona job : Str) : AnalyzedSection :=
  let pr := calculateRelevance (s.content ++ ' ' :: s.title) persona
  let jr := calculateRelevance (s.content ++ ' ' :: s.title) job
  { title := s.title, page := s.page, content := s.content,
    persona_relevance := pr, job_relevance := jr,
    combined_relevance := pr * 0.4 + jr * 0.6 }

/-! ## Lightweight text analyzer (`src/text_analyzer_lite.py`) -/

/-- LightweightTextAnalyzer.universal_keywords: fixed category → keyword
table. -/
def universalKeywords : List (List Str) :=
  [ ["plan".toList, "organize".toList, "create".toList, "build".toList,
     "develop".toList, "manage".toList, "execute".toList, "implement".toList],
    ["experience".toList, "activity".toList, "service".toList, "process".toList,
     "solution".toList, "approach".toList, "method".toList],
    ["best".toList, "top".toList, "excellent".toList, "quality".toList,
     "premium".toList, "recommended".toList, "popular".toList, "effective".toList],
    ["guide".toList, "tips".toList, "how".toList, "steps".toList,
     "instructions".toList, "advice".toList, "information".toList, "details".toList],
    ["important".toList, "key".toList, "main".toList, "essential".toList,
     "critical".toList, "significant".toList, "relevant".toList, "useful".toList],
    ["result".toList, "success".toList, "benefit".toList, "advantage".toList,
     "value".toList, "improvement".toList, "achievement".toList] ]

/-- Quality boost of LightweightTextAnalyzer._calculate_keyword_relevance:
per category, `min(matches × 0.08, 0.3)` when any keyword occurs as a
substring of the text. -/
def categoryBoost (text : Str) : ℚ :=
  (universalKeywords.map (fun kws =>
    let hits := (kws.filter (fun kw => containsSub kw text)).length
    if 0 < hits then min ((hits : ℚ) * 0.08) 0.3 else 0)).sum

/-- LightweightTextAnalyzer._calculate_keyword_relevance (lines 106-129):
word overlap divided by the larger token-set size, plus the capped category
boost, clamped to 1. -/
def calculateKeywordRelevance (text referenceText : Str) : ℚ :=
  if text = [] ∨ referenceText = [] then 0
  else
    let textWords := (wordTokens (lowerStr text)).toFinset
    let refWords := (wordTokens (lowerStr referenceText)).toFinset
    if textWords = ∅ ∨ refWords = ∅ then 0
    else
      let overlap := (textWords ∩ refWords).card
      let base := (overlap : ℚ) / (max textWords.card refWords.card : ℕ)
      min (base + categoryBoost text) 1

/-- Jaccard baseline as worded by the specification: tokenize both texts to
lower-case alphabetic words of length ≥ 3, return 0 when either token set
is empty, else intersection size over union size.  Used only to compare the
implementations against the spec's formula. -/
def jaccardSpec (text1 text2 : Str) : ℚ :=
  let words1 := (wordTokens (lowerStr text1)).toFinset
  let words2 := (wordTokens (lowerStr text2)).toFinset
  if words1 = ∅ ∨ words2 = ∅ then 0
  else ((words1 ∩ words2).card : ℚ) / ((words1 ∪ words2).card : ℕ)

/-- Subsection record of
LightweightTextAnalyzer._extract_subsections_fast. -/
structure SubsectionFast where
  content : Str
  position : Nat
  word_count : Nat
deriving DecidableEq, Repr

/-- LightweightTextAnalyzer._extract_subsections_fast (lines 156-174):
split on sentence punctuation, keep stripped sentences with ≥ 10 words
among the first 10, cap at 5. -/
def extractSubsectionsFast (content : Str) : List SubsectionFast :=
  if content = [] then []
  else
    let sentences := reSplitSentences content
    (((sentences.take 10).enum.filterMap (fun p =>
      let st := stripStr p.2
      if 10 ≤ (splitWs st).length then
        some ⟨st, p.1, (splitWs st).length⟩
      else none))).take 5

/-- Analyzed section of the lightweight analyzer.  The scorer later looks
up the key `page_number`, which segmentation never sets (it sets `page`),
so the dictionary default 1 always applies. -/
structure LiteSection where
  title : Str
  page_number : Nat
  content : Str
  persona_relevance : ℚ
  job_relevance : ℚ
  combined_relevance : ℚ
  subsections : List SubsectionFast
deriving DecidableEq, Repr

/-- LightweightTextAnalyzer._analyze_section_fast (lines 66-89): score the
lower-cased `title + " " + content` against the lower-cased persona and
job, combine with the fixed 0.4/0.6 weights, extract subsections from the
lower-cased content. -/
def analyzeSectionFast (s : Sectn) (persona job : Str) : LiteSection :=
  let content := lowerStr s.content
  let title := lowerStr s.title
  let combinedText := title ++ ' ' :: content
  let personaScore := calculateKeywordRelevance combinedText (lowerStr persona)
  let jobScore := calculateKeywordRelevance combinedText (lowerStr job)
  { title := s.title, page_number := 1, content := s.content,
    persona_relevance := personaScore, job_relevance := jobScore,
    combined_relevance := personaScore * 0.4 + jobScore * 0.6,
    subsections := extractSubsectionsFast content }

/-! ## Section ranker (`src/section_ranker.py`, class `SectionRanker`) -/

/-- Enhanced section record entering SectionRanker._rank_and_format_sections.
The fields `docIdx` and `pos` model the section's provenance — index of its
document in the input list and its position inside that document; Python
dictionaries carry such data untouched through `section.copy()` and the
ranker's scoring never reads them. -/
structure EnhancedSection where
  docIdx : Nat
  pos : Nat
  document : Str
  page : Nat
  title : Str
  content : Str
  final_score : ℚ
deriving DecidableEq, Repr

/-- Stable insertion into a list sorted by descending key: the inserted
element goes before the first strictly smaller key, after equal keys
already present only when it arrives later — matching the stability
guarantee of Python's `sorted(..., reverse=True)`. -/
def insertDescBy {α : Type} (key : α → ℚ) (x : α) : List α → List α
  | [] => [x]
  | y :: ys => if key y ≤ key x then x :: y :: ys else y :: insertDescBy key x ys

/-- Stable descending sort by a rational key, modelling Python's
`sorted(items, key=..., reverse=True)` (a stable sort). -/
def sortDescBy {α : Type} (key : α → ℚ) : List α → List α
  | [] => []
  | x :: xs => insertDescBy key x (sortDescBy key xs)

/-- SectionRanker._create_content_preview (lines 260-278 of
`src/src/section_ranker.py`): verbatim when within `maxLength`, else prefer
a sentence end in the last 30% of the window, then a space in the last 20%,
else hard truncation — appending `"..."` in all three truncating branches. -/
def createContentPreview (content : Str) (maxLength : Nat) : Str :=
  if content = [] then []
  else if content.length ≤ maxLength then content
  else
    let truncated := content.take maxLength
    let lastPeriod := rfindChar truncated '.'
    let lastSpace := rfindChar truncated ' '
    if (maxLength : ℚ) * 0.7 < (lastPeriod : ℚ) then
      content.take (lastPeriod.toNat + 1) ++ "...".toList
    else if (maxLength : ℚ) * 0.8 < (lastSpace : ℚ) then
      content.take lastSpace.toNat ++ "...".toList
    else
      truncated ++ "...".toList

/-- Output entry of SectionRanker._rank_and_format_sections. -/
structure FormattedSection where
  document : Str
  page_number : Nat
  section_title : Str
  importance_rank : Nat
  relevance_score : ℚ
  content_preview : Str
deriving DecidableEq, Repr

/-- Formatting loop of SectionRanker._rank_and_format_sections:
`for i, section in enumerate(...)` assigning `importance_rank = i + 1`. -/
def formatSectionsFrom (i : Nat) : List EnhancedSection → List FormattedSection
  | [] => []
  | s :: rest =>
    { document := s.document, page_number := s.page, section_title := s.title,
      importance_rank := i + 1, relevance_score := round3 s.final_score,
      content_preview := createContentPreview s.content 200 }
      :: formatSectionsFrom (i + 1) rest

/-- SectionRanker._rank_and_format_sections (lines 220-238): stable sort by
`final_score` descending, keep the top 20, assign dense ranks from 1. -/
def rankAndFormatSections (sections : List EnhancedSection) : List FormattedSection :=
  formatSectionsFrom 0 ((sortDescBy (fun s => s.final_score) sections).take 20)

/-- Enhanced subsection record entering
SectionRanker._rank_and_format_subsections. -/
structure EnhancedSubsection where
  document : Str
  section_title : Str
  refined_text : Str
  page_number : Nat
  final_score : ℚ
deriving DecidableEq, Repr

/-- Output entry of SectionRanker._rank_and_format_subsections. -/
structure FormattedSubsection where
  document : Str
  section_title : Str
  refined_text : Str
  page_number : Nat
  importance_rank : Nat
  relevance_score : ℚ
deriving DecidableEq, Repr

/-- Formatting loop of SectionRanker._rank_and_format_subsections. -/
def formatSubsectionsFrom (i : Nat) : List EnhancedSubsection → List FormattedSubsection
  | [] => []
  | s :: rest =>
    { document := s.document, section_title := s.section_title,
      refined_text := s.refined_text, page_number := s.page_number,
      importance_rank := i + 1, relevance_score := round3 s.final_score }
      :: formatSubsectionsFrom (i + 1) rest

/-- SectionRanker._rank_and_format_subsections (lines 240-258): stable sort
by `final_score` descending, keep the top 30, assign dense ranks from 1. -/
def rankAndFormatSubsections (subsections : List EnhancedSubsection) : List FormattedSubsection :=
  formatSubsectionsFrom 0 ((sortDescBy (fun s => s.final_score) subsections).take 30)

/-! ## Lightweight section ranker (`src/section_ranker_lite.py`) -/

/-- LightweightSectionRanker._clean_title prefix words (regex
`^(section|chapter|part)\s*\d*:?\s*`, case-insensitive). -/
def titleCleanPrefixes : List Str := ["section".toList, "chapter".toList, "part".toList]

/-- Drop a single leading colon, the `:?` of the cleaning regex. -/
def dropColon : Str → Str
  | ':' :: rest => rest
  | s => s

/-- LightweightSectionRanker._clean_title (lines 170-180): strip, remove a
leading section/chapter/part marker, collapse whitespace, cap at 100
characters with an ellipsis. -/
def cleanTitle (title : Str) : Str :=
  if title = [] then "Untitled Section".toList
  else
    let t := stripStr title
    let afterMarker :=
      match titleCleanPrefixes.find? (fun p => p.isPrefixOf (lowerStr t)) with
      | some p =>
        (dropColon (((t.drop p.length).dropWhile isPyWs).dropWhile Char.isDigit)).dropWhile isPyWs
      | none => t
    let cleaned := stripStr (collapseWsRuns afterMarker)
    if 100 < cleaned.length then cleaned.take 100 ++ "...".toList else cleaned

/-- LightweightSectionRanker._create_preview (lines 182-189): collapse
whitespace of the stripped content, truncate at 120 characters with an
ellipsis. -/
def createPreview (content : Str) (maxLength : Nat) : Str :=
  if content = [] then []
  else
    let cleaned := collapseWsRuns (stripStr content)
    if maxLength < cleaned.length then cleaned.take maxLength ++ "...".toList else cleaned

/-- LightweightSectionRanker._clean_content (lines 191-198): like the
preview but with a 150-character cap. -/
def cleanContent (content : Str) (maxLength : Nat) : Str :=
  if content = [] then []
  else
    let cleaned := collapseWsRuns (stripStr content)
    if maxLength < cleaned.length then cleaned.take maxLength ++ "...".toList else cleaned

/-- Output record of LightweightSectionRanker._score_subsection_optimized. -/
structure ScoredSubsection where
  document : Str
  section_title : Str
  refined_text : Str
  page_number : Nat
  relevance_score : ℚ
deriving DecidableEq, Repr

/-- LightweightSectionRanker._score_subsection_optimized (lines 95-113):
the subsection inherits the parent's combined relevance scaled by a
word-count quality factor (capped at 1), rounded to 3 decimals. -/
def scoreSubsectionOptimized (subsection : SubsectionFast) (parent : LiteSection)
    (filename : Str) : ScoredSubsection :=
  let parentRelevance := parent.combined_relevance
  let qualityScore : ℚ :=
    if 5 < subsection.word_count then min ((subsection.word_count : ℚ) / 20) 1 else 0.1
  { document := filename,
    section_title := cleanTitle parent.title,
    refined_text := cleanContent subsection.content 150,
    page_number := parent.page_number,
    relevance_score := round3 (parentRelevance * qualityScore) }

/-- Scored section record entering
LightweightSectionRanker._rank_and_format_sections_optimized (produced by
`_score_section_optimized`; `docIdx`/`pos` are provenance tags as in
`EnhancedSection`). -/
structure LiteScoredSection where
  docIdx : Nat
  pos : Nat
  document : Str
  page_number : Nat
  section_title : Str
  final_relevance_score : ℚ
  content_preview : Str
deriving DecidableEq, Repr

/-- Formatting loop of
LightweightSectionRanker._rank_and_format_sections_optimized:
`for i, section in enumerate(sorted_sections, 1)`. -/
def formatLiteSectionsFrom (i : Nat) : List LiteScoredSection → List FormattedSection
  | [] => []
  | s :: rest =>
    { document := s.document, page_number := s.page_number,
      section_title := s.section_title, importance_rank := i,
      relevance_score := s.final_relevance_score,
      content_preview := s.content_preview }
      :: formatLiteSectionsFrom (i + 1) rest

/-- LightweightSectionRanker._rank_and_format_sections_optimized (lines
130-148): stable sort by `final_relevance_score` descending, dense ranks
from 1 over the whole list. -/
def rankAndFormatSectionsOptimized (sections : List LiteScoredSection) : List FormattedSection :=
  formatLiteSectionsFrom 1 (sortDescBy (fun s => s.final_relevance_score) sections)

/-- Formatting loop of
LightweightSectionRanker._rank_and_format_subsections_optimized. -/
def formatLiteSubsectionsFrom (i : Nat) : List ScoredSubsection → List FormattedSubsection
  | [] => []
  | s :: rest =>
    { document := s.document, section_title := s.section_title,
      refined_text := s.refined_text, page_number := s.page_number,
      importance_rank := i, relevance_score := s.relevance_score }
      :: formatLiteSubsectionsFrom (i + 1) rest

/-- LightweightSectionRanker._rank_and_format_subsections_optimized (lines
150-168): stable sort by `relevance_score` descending, dense ranks from 1. -/
def rankAndFormatSubsectionsOptimized (subsections : List ScoredSubsection) : List FormattedSubsection :=
  formatLiteSubsectionsFrom 1 (sortDescBy (fun s => s.relevance_score) subsections)

/-- Sections list returned by LightweightSectionRanker.rank_sections:
the formatted list truncated to `max_sections = 10` (line 52). -/
def rankSectionsLiteSections (sections : List LiteScoredSection) : List FormattedSection :=
  (rankAndFormatSectionsOptimized sections).take 10

/-- Subsections list returned by LightweightSectionRanker.rank_sections:
the formatted list truncated to `max_subsections = 12` (line 53). -/
def rankSectionsLiteSubsections (subsections : List ScoredSubsection) : List FormattedSubsection :=
  (rankAndFormatSubsectionsOptimized subsections).take 12

/-! ## PDF processor segmentation (`src/pdf_processor.py`,
`PDFProcessor._identify_sections`) -/

/-- Heading regex `^[A-Z][A-Za-z\s]{10,}$` under `re.IGNORECASE`: a letter
followed by at least ten letters or whitespace characters, spanning the
whole line. -/
def headingPattern1 (line : Str) : Bool :=
  match line with
  | [] => false
  | c :: rest =>
    c.isAlpha && decide (10 ≤ rest.length) &&
      rest.all (fun ch => ch.isAlpha || isPyWs ch)

/-- Heading regex `^\d+\.\s+[A-Z]` under `re.IGNORECASE`: digits, a dot,
whitespace, a letter. -/
def headingPattern2 (line : Str) : Bool :=
  decide (0 < (line.takeWhile Char.isDigit).length) &&
    (match line.dropWhile Char.isDigit with
     | '.' :: r2 =>
       decide (0 < (r2.takeWhile isPyWs).length) &&
         (match r2.dropWhile isPyWs with
          | c :: _ => c.isAlpha
          | [] => false)
     | _ => false)

/-- Heading regex `^[A-Z][a-z]+:` under `re.IGNORECASE`: a letter, more
letters, a colon. -/
def headingPattern3 (line : Str) : Bool :=
  match line with
  | [] => false
  | c :: rest =>
    c.isAlpha && decide (0 < (rest.takeWhile Char.isAlpha).length) &&
      (match rest.dropWhile Char.isAlpha with
       | ':' :: _ => true
       | _ => false)

/-- Characters of the roman-numeral class `[IVX]` under `re.IGNORECASE`. -/
def isRomanChar (c : Char) : Bool :=
  c = 'I' || c = 'V' || c = 'X' || c = 'i' || c = 'v' || c = 'x'

/-- Heading regex `^[IVX]+\.\s+` under `re.IGNORECASE`. -/
def headingPattern4 (line : Str) : Bool :=
  decide (0 < (line.takeWhile isRomanChar).length) &&
    (match line.dropWhile isRomanChar with
     | '.' :: r => decide (0 < (r.takeWhile isPyWs).length)
     | _ => false)

/-- Heading regex `^\w+\s+\d+`: word characters, whitespace, digits. -/
def headingPattern5 (line : Str) : Bool :=
  decide (0 < (line.takeWhile isWordChar).length) &&
    (let r1 := line.dropWhile isWordChar
     decide (0 < (r1.takeWhile isPyWs).length) &&
       (match r1.dropWhile isPyWs with
        | c :: _ => c.isDigit
        | [] => false))

/-- Canonical academic headers of the sixth pattern (`^Abstract$|...`,
case-insensitive full match). -/
def academicHeaders : List Str :=
  ["abstract".toList, "introduction".toList, "conclusion".toList,
   "references".toList, "methods".toList, "results".toList, "discussion".toList]

/-- Heading regex alternation `^Abstract$|^Introduction$|...` under
`re.IGNORECASE`. -/
def headingPattern6 (line : Str) : Bool :=
  academicHeaders.contains (lowerStr line)

/-- Disjunction of the six heading patterns of
PDFProcessor._identify_sections (lines 138-145, matched with `re.match`
and `re.IGNORECASE`). -/
def isHeadingLine (line : Str) : Bool :=
  headingPattern1 line || headingPattern2 line || headingPattern3 line ||
    headingPattern4 line || headingPattern5 line || headingPattern6 line

/-- Open section being accumulated by PDFProcessor._identify_sections. -/
structure PendingSection where
  title : Str
  page : Nat
  start_line : Nat
deriving DecidableEq, Repr

/-- Section emitted by PDFProcessor._identify_sections. -/
structure PSection where
  title : Str
  page : Nat
  content : Str
  start_line : Nat
deriving DecidableEq, Repr

/-- Flush logic of PDFProcessor._identify_sections (both the
heading-triggered save at lines 167-171 and the final save at lines
196-200): join the accumulated lines with newlines, strip, and keep the
section only when the content exceeds 50 characters. -/
def flushPending (cur : Option PendingSection) (stext : List Str)
    (acc : List PSection) : List PSection :=
  match cur, stext with
  | some c, _ :: _ =>
    let content := stripStr (List.intercalate ['\n'] stext)
    if 50 < content.length then
      acc ++ [{ title := c.title, page := c.page, content := content,
                start_line := c.start_line }]
    else acc
  | _, _ => acc

/-- Main loop of PDFProcessor._identify_sections (lines 147-202), indexed
recursion over the raw line list.  The short-line/long-next-line fallback
reads the raw following line, matching `lines[i + 1]` in the source. -/
def identifyGo (pageNum : Nat) : List Str → Nat → Option PendingSection →
    List Str → List PSection → List PSection
  | [], _, cur, stext, acc => flushPending cur stext acc
  | rawLine :: rest, i, cur, stext, acc =>
    let line := stripStr rawLine
    if line = [] then identifyGo pageNum rest (i + 1) cur stext acc
    else
      let isHeading :=
        isHeadingLine line ||
          (decide (line.length < 100) &&
            (match rest with
             | [] => false
             | nextRaw :: _ =>
               let nextLine := stripStr nextRaw
               !nextLine.isEmpty && decide (50 < nextLine.length)))
      if isHeading then
        identifyGo pageNum rest (i + 1)
          (some { title := line, page := pageNum, start_line := i }) []
          (flushPending cur stext acc)
      else
        match cur with
        | some _ => identifyGo pageNum rest (i + 1) cur (stext ++ [line]) acc
        | none =>
          if acc = [] then
            identifyGo pageNum rest (i + 1)
              (some { title := "Document Content".toList, page := pageNum,
                      start_line := 0 }) [line] acc
          else identifyGo pageNum rest (i + 1) none stext acc

/-- PDFProcessor._identify_sections (lines 123-202): split the page text on
newlines and run the classification loop. -/
def identifySections (text : Str) (pageNum : Nat) : List PSection :=
  identifyGo pageNum (text.splitOnP (fun c => c = '\n')) 0 none [] []

/-! ## Standalone pipeline (`src/main.py`) -/

/-- Python `str.isupper()`: at least one cased character and no cased
character in lower case (cased = letter, in ASCII). -/
def pyIsUpper (s : Str) : Bool :=
  s.any Char.isAlpha && s.all (fun c => !c.isAlpha || c.isUpper)

/-- Title keywords of main.py's heuristic:
`stripped.lower().startswith(('section', 'chapter', 'part', 'introduction', 'conclusion'))`. -/
def mainTitleStarts : List Str :=
  ["section".toList, "chapter".toList, "part".toList,
   "introduction".toList, "conclusion".toList]

/-- Title heuristic of main.py's extract_sections_from_pdf (lines 32-36):
short line that is upper-case or digit-initial, or a line starting with a
section keyword, or a line equal to an oversized-font word (`bigWords`
models the texts of words with rendered height > 12; the PyPDF2 fallback
path passes no such words). -/
def mainIsTitle (stripped : Str) (bigWords : List Str) : Bool :=
  (!stripped.isEmpty && decide (stripped.length < 100) &&
    (pyIsUpper stripped ||
      (match stripped with
       | c :: _ => c.isDigit
       | [] => false))) ||
  mainTitleStarts.any (fun p => p.isPrefixOf (lowerStr stripped)) ||
  bigWords.contains stripped

/-- Section dictionary of main.py's extract_sections_from_pdf. -/
structure MSection where
  title : Str
  text : Str
  page : Nat
deriving DecidableEq, Repr

/-- Derived title of main.py (lines 44-47): join the first five
whitespace-separated words of the stripped text, falling back to
"Untitled Section" when no word exists. -/
def firstWordsTitle (text : Str) : Str :=
  let fw := List.intercalate [' '] ((splitWs (stripStr text)).take 5)
  if fw ≠ [] then fw else "Untitled Section".toList

/-- End-of-page flush of main.py's extract_sections_from_pdf (lines 43-48):
emit the open section when its text is non-empty, deriving a title from the
first words when the title is still "Untitled". -/
def finalFlushMain (cur : MSection) : List MSection :=
  if cur.text = [] then []
  else if cur.title = "Untitled".toList then
    [{ cur with title := firstWordsTitle cur.text }]
  else [cur]

/-- Per-line loop of main.py's extract_sections_from_pdf (lines 28-48): a
title line flushes the open section (when non-empty) and opens a new one;
a body line is appended raw, with a trailing space. -/
def extractPageGo (pageNum : Nat) (bigWords : List Str) :
    List Str → MSection → List MSection
  | [], cur => finalFlushMain cur
  | rawLine :: rest, cur =>
    let stripped := stripStr rawLine
    if mainIsTitle stripped bigWords then
      (if cur.text ≠ [] then [cur] else []) ++
        extractPageGo pageNum bigWords rest
          { title := stripped, text := [], page := pageNum }
    else
      extractPageGo pageNum bigWords rest
        { cur with text := cur.text ++ rawLine ++ [' '] }

/-- Page-level extraction of main.py's extract_sections_from_pdf: empty
page text yields no sections (`if text:`); otherwise split on newlines and
accumulate from an "Untitled" section. -/
def extractSectionsPage (text : Str) (bigWords : List Str) (pageNum : Nat) :
    List MSection :=
  if text = [] then []
  else
    extractPageGo pageNum bigWords (text.splitOnP (fun c => c = '\n'))
      { title := "Untitled".toList, text := [], page := pageNum }

/-- main.py extract_sections_from_pdf (lines 17-77) over a whole document:
pages are numbered from 1; each page carries its text and the list of
oversized-font word texts. -/
def extractSectionsFromPdf (pages : List (Str × List Str)) : List MSection :=
  pages.enum.flatMap (fun p => extractSectionsPage p.2.1 p.2.2 (p.1 + 1))

/-- main.py score_section_relevance (lines 79-85): keyword overlap against
the persona+job word set, blended with a length score. -/
def scoreSectionRelevance (sectionText persona job : Str) : ℚ :=
  let keywords := (splitWs (lowerStr persona) ++ splitWs (lowerStr job)).toFinset
  let words := (splitWs (lowerStr sectionText)).toFinset
  let overlap := ((keywords ∩ words).card : ℚ) / (max keywords.card 1 : ℕ)
  let lengthScore := min ((sectionText.length : ℚ) / 1000) 1
  overlap * 0.6 + lengthScore * 0.4

/-- Scored entry of main.py rank_sections before field projection. -/
structure ScoredFull where
  document : Str
  section_title : Str
  importance_rank : Nat
  page_number : Nat
  score : ℚ
  text : Str
deriving DecidableEq, Repr

/-- Ranked output entry of main.py rank_sections. -/
structure RankedEntry where
  document : Str
  section_title : Str
  importance_rank : Nat
  page_number : Nat
deriving DecidableEq, Repr

/-- main.py rank_sections (lines 87-97): score every section of every
document, stable-sort descending, assign ranks 1.. to the top `topN`, and
return both the projected entries and the full records. -/
def mainRankSections (allSections : List (Str × List MSection))
    (persona job : Str) (topN : Nat) : List RankedEntry × List ScoredFull :=
  let scored := allSections.flatMap (fun doc => doc.2.map (fun sec =>
    ({ document := doc.1, section_title := sec.title, importance_rank := 0,
       page_number := sec.page, score := scoreSectionRelevance sec.text persona job,
       text := sec.text } : ScoredFull)))
  let top := ((sortDescBy (fun s => s.score) scored).take topN).enum.map
    (fun p => { p.2 with importance_rank := p.1 + 1 })
  (top.map (fun it =>
    ({ document := it.document, section_title := it.section_title,
       importance_rank := it.importance_rank, page_number := it.page_number }
      : RankedEntry)), top)

/-- Refined text of main.py's subsection analysis (line 128): strip, and
truncate with an ellipsis when the raw text exceeds 500 characters. -/
def refineText (text : Str) : Str :=
  if 500 < text.length then (stripStr text).take 500 ++ "...".toList
  else stripStr text

/-- Subsection-analysis entry of main.py (lines 129-133). -/
structure SubAnalysis where
  document : Str
  refined_text : Str
  page_number : Nat
deriving DecidableEq, Repr

/-- Output payload of main.py (lines 135-144), metadata timestamp omitted. -/
structure OutputData where
  input_documents : List Str
  persona : Str
  job : Str
  extracted_sections : List RankedEntry
  subsection_analysis : List SubAnalysis
deriving DecidableEq, Repr

/-- main.py main (lines 99-149) as a pure pipeline: the only early
`return` (failure, modelled as `none`) is the config check requiring
exactly one JSON file; afterwards every document is extracted, ranked and
serialized unconditionally — even when no document yields sections. -/
def mainRun (jsonCount : Nat) (pdfDocs : List (Str × List (Str × List Str)))
    (persona job : Str) : Option OutputData :=
  if jsonCount ≠ 1 then none
  else
    let allSections := pdfDocs.map (fun d => (d.1, extractSectionsFromPdf d.2))
    let ranked := mainRankSections allSections persona job 5
    some { input_documents := pdfDocs.map (fun d => d.1), persona := persona,
           job := job,
           extracted_sections := ranked.1,
           subsection_analysis := (ranked.2.take 5).map (fun it =>
             { document := it.document, refined_text := refineText it.text,
               page_number := it.page_number }) }

/-- Boolean suffix test: `s` ends with `suffix`. -/
def endsWithStr (suffix s : Str) : Bool :=
  suffix.reverse.isPrefixOf s.reverse

/-- Collection order of the ranker: a section comes before another when its
document appears earlier in the input, or both come from the same document
and it has the smaller position. -/
def tagBefore (a b : EnhancedSection) : Prop :=
  a.docIdx < b.docIdx ∨ (a.docIdx = b.docIdx ∧ a.pos < b.pos)

instance (a b : EnhancedSection) : Decidable (tagBefore a b) := by
  unfold tagBefore
  infer_instance

/-! ## Lemmas about the relevance primitives -/

lemma calculateWordOverlap_nonneg (t1 t2 : Str) : 0 ≤ calculateWordOverlap t1 t2 := by
  simp only [calculateWordOverlap]
  split_ifs
  · exact le_refl 0
  · positivity
  · exact le_refl 0

lemma calculateWordOverlap_le_one (t1 t2 : Str) : calculateWordOverlap t1 t2 ≤ 1 := by
  simp only [calculateWordOverlap]
  split_ifs with h1 h2
  · exact zero_le_one
  · rw [div_le_one (by exact_mod_cast h2)]
    exact_mod_cast Finset.card_le_card Finset.inter_subset_union
  · exact zero_le_one

lemma calculateRelevance_nonneg (t r : Str) : 0 ≤ calculateRelevance t r := by
  simp only [calculateRelevance]
  split_ifs
  · exact le_refl 0
  · exact calculateWordOverlap_nonneg t r

lemma calculateRelevance_le_one (t r : Str) : calculateRelevance t r ≤ 1 := by
  simp only [calculateRelevance]
  split_ifs
  · exact zero_le_one
  · exact calculateWordOverlap_le_one t r

lemma categoryBoost_nonneg (text : Str) : 0 ≤ categoryBoost text := by
  apply List.sum_nonneg
  intro x hx
  simp only [List.mem_map] at hx
  obtain ⟨kws, _, rfl⟩ := hx
  split_ifs
  · exact le_min (by positivity) (by norm_num)
  · exact le_refl 0

lemma calculateKeywordRelevance_nonneg (t r : Str) : 0 ≤ calculateKeywordRelevance t r := by
  simp only [calculateKeywordRelevance]
  split_ifs
  · exact le_refl 0
  · exact le_refl 0
  · exact le_min (add_nonneg (by positivity) (categoryBoost_nonneg t)) zero_le_one

lemma calculateKeywordRelevance_le_one (t r : Str) : calculateKeywordRelevance t r ≤ 1 := by
  simp only [calculateKeywordRelevance]
  split_ifs
  · exact zero_le_one
  · exact zero_le_one
  · exact min_le_right _ _

lemma combined_weights_bounds {p j : ℚ} (hp0 : 0 ≤ p) (hp1 : p ≤ 1)
    (hj0 : 0 ≤ j) (hj1 : j ≤ 1) :
    0 ≤ p * 0.4 + j * 0.6 ∧ p * 0.4 + j * 0.6 ≤ 1 := by
  constructor <;> nlinarith

/-- C2: for every scored section, the persona relevance, job relevance and
combined relevance of both analyzers lie in [0, 1], and the combined
relevance is exactly `persona_relevance * 0.4 + job_relevance * 0.6`. -/
theorem analyze_section_scores_bounded (s : Sectn) (persona job : Str) :
    (0 ≤ (analyzeSection s persona job).persona_relevance ∧
      (analyzeSection s persona job).persona_relevance ≤ 1) ∧
    (0 ≤ (analyzeSection s persona job).job_relevance ∧
      (analyzeSection s persona job).job_relevance ≤ 1) ∧
    (0 ≤ (analyzeSection s persona job).combined_relevance ∧
      (analyzeSection s persona job).combined_relevance ≤ 1) ∧
    (analyzeSection s persona job).combined_relevance =
      (analyzeSection s persona job).persona_relevance * 0.4 +
        (analyzeSection s persona job).job_relevance * 0.6 ∧
    (0 ≤ (analyzeSectionFast s persona job).persona_relevance ∧
      (analyzeSectionFast s persona job).persona_relevance ≤ 1) ∧
    (0 ≤ (analyzeSectionFast s persona job).job_relevance ∧
      (analyzeSectionFast s persona job).job_relevance ≤ 1) ∧
    (0 ≤ (analyzeSectionFast s persona job).combined_relevance ∧
      (analyzeSectionFast s persona job).combined_relevance ≤ 1) ∧
    (analyzeSectionFast s persona job).combined_relevance =
      (analyzeSectionFast s persona job).persona_relevance * 0.4 +
        (analyzeSectionFast s persona job).job_relevance * 0.6 := by
  have hp0 := calculateRelevance_nonneg (s.content ++ ' ' :: s.title) persona
  have hp1 := calculateRelevance_le_one (s.content ++ ' ' :: s.title) persona
  have hj0 := calculateRelevance_nonneg (s.content ++ ' ' :: s.title) job
  have hj1 := calculateRelevance_le_one (s.content ++ ' ' :: s.title) job
  have hc := combined_weights_bounds hp0 hp1 hj0 hj1
  have hp0' := calculateKeywordRelevance_nonneg
    (lowerStr s.title ++ ' ' :: lowerStr s.content) (lowerStr persona)
  have hp1' := calculateKeywordRelevance_le_one
    (lowerStr s.title ++ ' ' :: lowerStr s.content) (lowerStr persona)
  have hj0' := calculateKeywordRelevance_nonneg
    (lowerStr s.title ++ ' ' :: lowerStr s.content) (lowerStr job)
  have hj1' := calculateKeywordRelevance_le_one
    (lowerStr s.title ++ ' ' :: lowerStr s.content) (lowerStr job)
  have hc' := combined_weights_bounds hp0' hp1' hj0' hj1'
  exact ⟨⟨hp0, hp1⟩, ⟨hj0, hj1⟩, hc, rfl, ⟨hp0', hp1'⟩, ⟨hj0', hj1'⟩, hc', rfl⟩

/-- C6: when persona and job are both empty, every section's combined
relevance is exactly 0 in both analyzers, and an empty query string on
either side contributes zero relevance from that side (the guard returns 0
rather than raising). -/
theorem empty_queries_zero_relevance (s : Sectn) (persona job : Str) (t : Str) :
    (analyzeSection s [] []).combined_relevance = 0 ∧
    (analyzeSection s [] job).persona_relevance = 0 ∧
    (analyzeSection s persona []).job_relevance = 0 ∧
    (analyzeSectionFast s [] []).combined_relevance = 0 ∧
    (analyzeSectionFast s [] job).persona_relevance = 0 ∧
    (analyzeSectionFast s persona []).job_relevance = 0 ∧
    calculateRelevance t [] = 0 ∧
    calculateKeywordRelevance t [] = 0 := by
  have hr : ∀ u : Str, calculateRelevance u [] = 0 := by
    intro u; simp [calculateRelevance]
  have hk : ∀ u : Str, calculateKeywordRelevance u [] = 0 := by
    intro u; simp [calculateKeywordRelevance]
  refine ⟨?_, ?_, ?_, ?_, ?_, ?_, hr t, hk t⟩
  · show calculateRelevance _ [] * 0.4 + calculateRelevance _ [] * 0.6 = 0
    simp [hr]
  · exact hr _
  · exact hr _
  · show calculateKeywordRelevance _ (lowerStr []) * 0.4 +
      calculateKeywordRelevance _ (lowerStr []) * 0.6 = 0
    show calculateKeywordRelevance _ [] * 0.4 + calculateKeywordRelevance _ [] * 0.6 = 0
    simp [hk]
  · exact hk _
  · exact hk _

/-! ## Lemmas about rounding -/

lemma roundHalfEven_le (x : ℚ) : (roundHalfEven x : ℚ) ≤ x + 1/2 := by
  have hfl : (⌊x⌋ : ℚ) ≤ x := Int.floor_le x
  simp only [roundHalfEven]
  split_ifs with h1 h2 h3
  · linarith
  · push_cast
    linarith
  · linarith
  · push_cast
    linarith

lemma round3_le (x : ℚ) : round3 x ≤ x + 1/2000 := by
  have h := roundHalfEven_le (x * 1000)
  simp only [round3]
  rw [div_le_iff₀ (by norm_num : (0:ℚ) < 1000)]
  linarith

/-- C10: the lightweight ranker's subsection relevance score equals the
parent's combined relevance times a quality factor that never exceeds 1,
rounded to three decimals, so (for non-negative parent scores) it never
exceeds the parent's combined relevance by more than the rounding error. -/
theorem subsection_score_bounded_by_parent (sub : SubsectionFast)
    (parent : LiteSection) (filename : Str)
    (h : 0 ≤ parent.combined_relevance) :
    (scoreSubsectionOptimized sub parent filename).relevance_score =
      round3 (parent.combined_relevance *
        (if 5 < sub.word_count then min ((sub.word_count : ℚ) / 20) 1 else 0.1)) ∧
    (if 5 < sub.word_count then min ((sub.word_count : ℚ) / 20) 1 else (0.1 : ℚ)) ≤ 1 ∧
    (scoreSubsectionOptimized sub parent filename).relevance_score ≤
      parent.combined_relevance + 1/2000 := by
  have hq1 : (if 5 < sub.word_count then min ((sub.word_count : ℚ) / 20) 1 else (0.1 : ℚ)) ≤ 1 := by
    split_ifs
    · exact min_le_right _ _
    · norm_num
  refine ⟨rfl, hq1, ?_⟩
  have hq0 : 0 ≤ (if 5 < sub.word_count then min ((sub.word_count : ℚ) / 20) 1 else (0.1 : ℚ)) := by
    split_ifs
    · exact le_min (by positivity) zero_le_one
    · norm_num
  have hmul : parent.combined_relevance *
      (if 5 < sub.word_count then min ((sub.word_count : ℚ) / 20) 1 else (0.1 : ℚ)) ≤
      parent.combined_relevance := mul_le_of_le_one_right h hq1
  have hr := round3_le (parent.combined_relevance *
    (if 5 < sub.word_count then min ((sub.word_count : ℚ) / 20) 1 else (0.1 : ℚ)))
  show round3 _ ≤ _
  calc round3 (parent.combined_relevance *
        (if 5 < sub.word_count then min ((sub.word_count : ℚ) / 20) 1 else (0.1 : ℚ))) ≤
      parent.combined_relevance *
        (if 5 < sub.word_count then min ((sub.word_count : ℚ) / 20) 1 else (0.1 : ℚ)) +
        1/2000 := hr
    _ ≤ parent.combined_relevance + 1/2000 := by linarith

/-- C10 witness: the theorem applied at a concrete subsection and parent. -/
theorem subsection_score_bounded_by_parent_witness :
    0 ≤ (({ title := [], page_number := 1, content := [], persona_relevance := 1,
            job_relevance := 1, combined_relevance := 1, subsections := [] } :
            LiteSection)).combined_relevance ∧
    ((scoreSubsectionOptimized ⟨[], 0, 10⟩
        { title := [], page_number := 1, content := [], persona_relevance := 1,
          job_relevance := 1, combined_relevance := 1, subsections := [] }
        []).relevance_score =
      round3 ((1 : ℚ) *
        (if 5 < (10:Nat) then min (((10:Nat) : ℚ) / 20) 1 else 0.1)) ∧
      (if 5 < (10:Nat) then min (((10:Nat) : ℚ) / 20) 1 else (0.1 : ℚ)) ≤ 1 ∧
      (scoreSubsectionOptimized ⟨[], 0, 10⟩
        { title := [], page_number := 1, content := [], persona_relevance := 1,
          job_relevance := 1, combined_relevance := 1, subsections := [] }
        []).relevance_score ≤ 1 + 1/2000) :=
  ⟨by norm_num,
    subsection_score_bounded_by_parent ⟨[], 0, 10⟩
      { title := [], page_number := 1, content := [], persona_relevance := 1,
        job_relevance := 1, combined_relevance := 1, subsections := [] }
      [] (by norm_num)⟩

/-! ## The lexical baseline: Jaccard versus the lightweight formula -/

lemma categoryBoost_zero_of_no_hits (text : Str)
    (h : ∀ kws ∈ universalKeywords, ∀ kw ∈ kws, containsSub kw text = false) :
    categoryBoost text = 0 := by
  apply List.sum_eq_zero
  intro x hx
  simp only [List.mem_map] at hx
  obtain ⟨kws, hkws, rfl⟩ := hx
  have hfilter : kws.filter (fun kw => containsSub kw text) = [] := by
    rw [List.filter_eq_nil_iff]
    intro kw hkw
    simp [h kws hkws kw hkw]
  simp [hfilter]

/-- C5 counterexample: on `"cat dog"` versus `"cat bird"` the lightweight
analyzer's baseline relevance is 1/2 (intersection over the larger set),
not the Jaccard ratio 1/3 (intersection over union) the claim requires. -/
theorem keyword_relevance_not_jaccard :
    calculateKeywordRelevance "cat dog".toList "cat bird".toList = 1/2 ∧
    jaccardSpec "cat dog".toList "cat bird".toList = 1/3 ∧
    calculateKeywordRelevance "cat dog".toList "cat bird".toList ≠
      jaccardSpec "cat dog".toList "cat bird".toList := by
  have hb : categoryBoost "cat dog".toList = 0 :=
    categoryBoost_zero_of_no_hits _ (by decide)
  have hov : ((wordTokens (lowerStr "cat dog".toList)).toFinset ∩
      (wordTokens (lowerStr "cat bird".toList)).toFinset).card = 1 := by decide
  have hmax : max (wordTokens (lowerStr "cat dog".toList)).toFinset.card
      (wordTokens (lowerStr "cat bird".toList)).toFinset.card = 2 := by decide
  have hun : ((wordTokens (lowerStr "cat dog".toList)).toFinset ∪
      (wordTokens (lowerStr "cat bird".toList)).toFinset).card = 3 := by decide
  have h1 : calculateKeywordRelevance "cat dog".toList "cat bird".toList = 1/2 := by
    simp only [calculateKeywordRelevance, hov, hmax, hb]
    rw [if_neg (by decide), if_neg (by decide)]
    rw [min_def]
    norm_num
  have h2 : jaccardSpec "cat dog".toList "cat bird".toList = 1/3 := by
    simp only [jaccardSpec, hov, hun]
    rw [if_neg (by decide)]
    norm_num
  exact ⟨h1, h2, by rw [h1, h2]; norm_num⟩

/-- C5 amended: the full analyzer's word-overlap baseline is exactly the
specification's Jaccard formula (tokens of length ≥ 3; zero when either
token set is empty), with values in [0, 1]; the lightweight analyzer's
relevance is only guaranteed to lie in [0, 1] — its baseline divides the
overlap by the larger token-set size and adds a capped category boost. -/
theorem word_overlap_is_jaccard (t1 t2 : Str) :
    calculateWordOverlap t1 t2 = jaccardSpec t1 t2 ∧
    0 ≤ calculateWordOverlap t1 t2 ∧ calculateWordOverlap t1 t2 ≤ 1 ∧
    0 ≤ calculateKeywordRelevance t1 t2 ∧ calculateKeywordRelevance t1 t2 ≤ 1 := by
  refine ⟨?_, calculateWordOverlap_nonneg t1 t2, calculateWordOverlap_le_one t1 t2,
    calculateKeywordRelevance_nonneg t1 t2, calculateKeywordRelevance_le_one t1 t2⟩
  simp only [calculateWordOverlap, jaccardSpec]
  split_ifs with h1 h2
  · rfl
  · rfl
  · exfalso
    apply h2
    rcases not_or.mp h1 with ⟨ha, _⟩
    have : ((wordTokens (lowerStr t1)).toFinset ∪ (wordTokens (lowerStr t2)).toFinset).Nonempty :=
      Finset.Nonempty.mono Finset.subset_union_left
        (Finset.nonempty_iff_ne_empty.mpr ha)
    exact Finset.card_pos.mpr this

/-! ## Dense importance ranks -/

lemma rangeAux_take (s : Nat) : ∀ (n m : Nat),
    (List.range' s n).take m = List.range' s (min m n) := by
  intro n
  induction n generalizing s with
  | zero => intro m; simp [List.range']
  | succ n ih =>
    intro m
    cases m with
    | zero => simp [List.range']
    | succ m =>
      simp only [List.range', List.take_succ_cons, Nat.succ_min_succ]
      rw [ih]

lemma formatSectionsFrom_ranks : ∀ (l : List EnhancedSection) (i : Nat),
    (formatSectionsFrom i l).map (fun s => s.importance_rank) =
      List.range' (i + 1) l.length := by
  intro l
  induction l with
  | nil => intro i; rfl
  | cons x xs ih =>
    intro i
    simp only [formatSectionsFrom, List.map_cons, List.length_cons, List.range', ih]

lemma formatSubsectionsFrom_ranks : ∀ (l : List EnhancedSubsection) (i : Nat),
    (formatSubsectionsFrom i l).map (fun s => s.importance_rank) =
      List.range' (i + 1) l.length := by
  intro l
  induction l with
  | nil => intro i; rfl
  | cons x xs ih =>
    intro i
    simp only [formatSubsectionsFrom, List.map_cons, List.length_cons, List.range', ih]

lemma formatLiteSectionsFrom_ranks : ∀ (l : List LiteScoredSection) (i : Nat),
    (formatLiteSectionsFrom i l).map (fun s => s.importance_rank) =
      List.range' i l.length := by
  intro l
  induction l with
  | nil => intro i; rfl
  | cons x xs ih =>
    intro i
    simp only [formatLiteSectionsFrom, List.map_cons, List.length_cons, List.range', ih]

lemma formatLiteSubsectionsFrom_ranks : ∀ (l : List ScoredSubsection) (i : Nat),
    (formatLiteSubsectionsFrom i l).map (fun s => s.importance_rank) =
      List.range' i l.length := by
  intro l
  induction l with
  | nil => intro i; rfl
  | cons x xs ih =>
    intro i
    simp only [formatLiteSubsectionsFrom, List.map_cons, List.length_cons, List.range', ih]

/-- C3: in every sections list and every subsections list returned by the
rankers, the importance ranks are exactly the dense sequence `1..len` in
ascending order (rank 1 first). -/
theorem importance_ranks_dense (a : List EnhancedSection) (b : List EnhancedSubsection)
    (c : List LiteScoredSection) (d : List ScoredSubsection) :
    (rankAndFormatSections a).map (fun s => s.importance_rank) =
      List.range' 1 (rankAndFormatSections a).length ∧
    (rankAndFormatSubsections b).map (fun s => s.importance_rank) =
      List.range' 1 (rankAndFormatSubsections b).length ∧
    (rankSectionsLiteSections c).map (fun s => s.importance_rank) =
      List.range' 1 (rankSectionsLiteSections c).length ∧
    (rankSectionsLiteSubsections d).map (fun s => s.importance_rank) =
      List.range' 1 (rankSectionsLiteSubsections d).length := by
  refine ⟨?_, ?_, ?_, ?_⟩
  · rw [rankAndFormatSections, formatSectionsFrom_ranks]
    congr 1
    rw [← List.length_map (formatSectionsFrom 0 _) (fun s => s.importance_rank),
      formatSectionsFrom_ranks, List.length_range']
  · rw [rankAndFormatSubsections, formatSubsectionsFrom_ranks]
    congr 1
    rw [← List.length_map (formatSubsectionsFrom 0 _) (fun s => s.importance_rank),
      formatSubsectionsFrom_ranks, List.length_range']
  · rw [rankSectionsLiteSections, rankAndFormatSectionsOptimized, List.map_take,
      formatLiteSectionsFrom_ranks, List.length_take, rangeAux_take]
    congr 1
    rw [← List.length_map (formatLiteSectionsFrom 1 _) (fun s => s.importance_rank),
      formatLiteSectionsFrom_ranks, List.length_range']
  · rw [rankSectionsLiteSubsections, rankAndFormatSubsectionsOptimized, List.map_take,
      formatLiteSubsectionsFrom_ranks, List.length_take, rangeAux_take]
    congr 1
    rw [← List.length_map (formatLiteSubsectionsFrom 1 _) (fun s => s.importance_rank),
      formatLiteSubsectionsFrom_ranks, List.length_range']

/-! ## Stable descending sort -/

lemma mem_insertDescBy {α : Type} (key : α → ℚ) (x : α) :
    ∀ (l : List α) (y : α), y ∈ insertDescBy key x l ↔ y = x ∨ y ∈ l := by
  intro l
  induction l with
  | nil => intro y; simp [insertDescBy]
  | cons z zs ih =>
    intro y
    simp only [insertDescBy]
    split_ifs
    · simp [or_comm, or_assoc, or_left_comm]
    · simp only [List.mem_cons, ih]
      tauto

lemma perm_insertDescBy {α : Type} (key : α → ℚ) (x : α) :
    ∀ (l : List α), (insertDescBy key x l).Perm (x :: l) := by
  intro l
  induction l with
  | nil => simp [insertDescBy]
  | cons z zs ih =>
    simp only [insertDescBy]
    split_ifs
    · exact List.Perm.refl _
    · exact (List.Perm.cons z ih).trans (List.Perm.swap x z zs)

lemma sortDescBy_perm {α : Type} (key : α → ℚ) :
    ∀ (l : List α), (sortDescBy key l).Perm l := by
  intro l
  induction l with
  | nil => exact List.Perm.refl _
  | cons x xs ih =>
    exact (perm_insertDescBy key x (sortDescBy key xs)).trans (List.Perm.cons x ih)

lemma pairwise_insertDescBy {α : Type} (key : α → ℚ) (r : α → α → Prop) (x : α) :
    ∀ (l : List α),
      l.Pairwise (fun a b => key b < key a ∨ (key a = key b ∧ r a b)) →
      (∀ y ∈ l, r x y) →
      (insertDescBy key x l).Pairwise
        (fun a b => key b < key a ∨ (key a = key b ∧ r a b)) := by
  intro l
  induction l with
  | nil => intro _ _; simp [insertDescBy]
  | cons z zs ih =>
    intro hl hx
    rw [List.pairwise_cons] at hl
    obtain ⟨hz, hzs⟩ := hl
    simp only [insertDescBy]
    split_ifs with hkey
    · refine List.Pairwise.cons ?_ (List.Pairwise.cons hz hzs)
      intro y hy
      rcases List.mem_cons.mp hy with rfl | hy
      · by_cases hlt : key y < key x
        · exact Or.inl hlt
        · exact Or.inr ⟨le_antisymm (not_lt.mp hlt) hkey, hx y (List.mem_cons_self _ _)⟩
      · rcases hz y hy with hlt | ⟨heq, _⟩
        · by_cases hxy : key y < key x
          · exact Or.inl hxy
          · exact absurd (lt_of_lt_of_le hlt hkey) hxy
        · by_cases hxy : key y < key x
          · exact Or.inl hxy
          · refine Or.inr ⟨le_antisymm (not_lt.mp hxy) (heq ▸ hkey), hx y (List.mem_cons_of_mem _ hy)⟩
    · refine List.Pairwise.cons ?_ (ih hzs (fun y hy => hx y (List.mem_cons_of_mem _ hy)))
      intro y hy
      rcases (mem_insertDescBy key x zs y).mp hy with rfl | hy
      · exact Or.inl (lt_of_not_le hkey)
      · exact hz y hy

lemma sortDescBy_pairwise {α : Type} (key : α → ℚ) (r : α → α → Prop) :
    ∀ (l : List α), l.Pairwise r →
      (sortDescBy key l).Pairwise
        (fun a b => key b < key a ∨ (key a = key b ∧ r a b)) := by
  intro l
  induction l with
  | nil => intro _; simp [sortDescBy]
  | cons x xs ih =>
    intro hl
    rw [List.pairwise_cons] at hl
    exact pairwise_insertDescBy key r x (sortDescBy key xs) (ih hl.2)
      (fun y hy => hl.1 y ((sortDescBy_perm key xs).mem_iff.mp hy))

/-- C8: the ranker's sort is a permutation of its input ordered by final
score descending, and ties are broken stably: with equal final scores the
section collected earlier — earlier document, or same document and lower
position — comes first. -/
theorem rank_sort_stable_tie_break (l : List EnhancedSection)
    (h : l.Pairwise tagBefore) :
    (sortDescBy (fun s => s.final_score) l).Perm l ∧
    (sortDescBy (fun s => s.final_score) l).Pairwise (fun a b =>
      b.final_score < a.final_score ∨
        (a.final_score = b.final_score ∧ tagBefore a b)) :=
  ⟨sortDescBy_perm _ l, sortDescBy_pairwise _ _ l h⟩

/-- C8 witness: three concretely tagged sections — two with equal scores
from different documents — sorted by the theorem. -/
theorem rank_sort_stable_tie_break_witness :
    ([⟨0, 0, [], 1, [], [], 2⟩, ⟨0, 1, [], 1, [], [], 1⟩, ⟨1, 0, [], 1, [], [], 1⟩] :
        List EnhancedSection).Pairwise tagBefore ∧
    ((sortDescBy (fun s => s.final_score)
        ([⟨0, 0, [], 1, [], [], 2⟩, ⟨0, 1, [], 1, [], [], 1⟩, ⟨1, 0, [], 1, [], [], 1⟩] :
          List EnhancedSection)).Perm
      ([⟨0, 0, [], 1, [], [], 2⟩, ⟨0, 1, [], 1, [], [], 1⟩, ⟨1, 0, [], 1, [], [], 1⟩] :
        List EnhancedSection) ∧
    (sortDescBy (fun s => s.final_score)
        ([⟨0, 0, [], 1, [], [], 2⟩, ⟨0, 1, [], 1, [], [], 1⟩, ⟨1, 0, [], 1, [], [], 1⟩] :
          List EnhancedSection)).Pairwise (fun a b =>
      b.final_score < a.final_score ∨
        (a.final_score = b.final_score ∧ tagBefore a b))) :=
  ⟨by decide, rank_sort_stable_tie_break _ (by decide)⟩

/-! ## Content previews -/

lemma isPrefixOf_append_self : ∀ (a b : Str), a.isPrefixOf (a ++ b) = true := by
  intro a
  induction a with
  | nil => intro b; simp [List.isPrefixOf]
  | cons c cs ih => intro b; simp [List.isPrefixOf, ih]

lemma endsWithStr_append (s t : Str) : endsWithStr t (s ++ t) = true := by
  unfold endsWithStr
  rw [List.reverse_append]
  exact isPrefixOf_append_self _ _

lemma rfindChar_lt_length (s : Str) (c : Char) : rfindChar s c < (s.length : Int) := by
  unfold rfindChar
  cases hfi : s.reverse.findIdx? (fun x => x = c) with
  | none => simp only [hfi]; omega
  | some i => simp only [hfi]; omega

/-- C1 counterexample: for a 201-character section content the preview is
the 200-character prefix with `"..."` appended — it ends with the ellipsis
but has 203 characters, so it is longer than the content, refuting "equal
or strictly shorter". -/
theorem content_preview_longer_than_content :
    createContentPreview (List.replicate 201 'a') 200 =
      List.replicate 200 'a' ++ "...".toList ∧
    ¬ (createContentPreview (List.replicate 201 'a') 200 = List.replicate 201 'a' ∨
        (endsWithStr "...".toList (createContentPreview (List.replicate 201 'a') 200) = true ∧
          (createContentPreview (List.replicate 201 'a') 200).length <
            (List.replicate 201 'a' : Str).length)) := by
  have hfp : rfindChar (List.take 200 (List.replicate 201 'a')) '.' = -1 := by decide
  have hfs : rfindChar (List.take 200 (List.replicate 201 'a')) ' ' = -1 := by decide
  have heval : createContentPreview (List.replicate 201 'a') 200 =
      List.replicate 200 'a' ++ "...".toList := by
    unfold createContentPreview
    rw [if_neg (by decide : ¬(List.replicate 201 'a' = ([] : Str)))]
    rw [if_neg (by decide : ¬((List.replicate 201 'a' : Str).length ≤ 200))]
    dsimp only
    rw [hfp, hfs]
    rw [if_neg (by push_cast; norm_num), if_neg (by push_cast; norm_num)]
    rw [List.take_replicate]
    norm_num
  refine ⟨heval, ?_⟩
  have hlen1 : (List.replicate 200 'a' ++ "...".toList : Str).length = 203 := by simp
  have hlen2 : (List.replicate 201 'a' : Str).length = 201 := by simp
  rintro (heq | ⟨_, hlt⟩)
  · have := congrArg List.length heq
    rw [heval, hlen1, hlen2] at this
    omega
  · rw [heval, hlen1, hlen2] at hlt
    omega

/-- C1 amended: the full ranker's preview equals the content when it is
within the 200-character bound; otherwise it ends with the ellipsis marker
and has at most 203 characters (hence is strictly shorter than the content
only once the content exceeds 203 characters).  The lite preview behaves
the same way on the whitespace-collapsed content with bound 120. -/
theorem content_preview_bounded (content : Str) (h : content ≠ []) :
    ((createContentPreview content 200 = content ∧ content.length ≤ 200) ∨
      (endsWithStr "...".toList (createContentPreview content 200) = true ∧
        (createContentPreview content 200).length ≤ 203 ∧ 200 < content.length)) ∧
    ((createPreview content 120 = collapseWsRuns (stripStr content) ∧
        (createPreview content 120).length ≤ 120) ∨
      (endsWithStr "...".toList (createPreview content 120) = true ∧
        (createPreview content 120).length ≤ 123)) ∧
    (203 < content.length → (createContentPreview content 200).length < content.length) := by
  have key : (createContentPreview content 200 = content ∧ content.length ≤ 200) ∨
      (endsWithStr "...".toList (createContentPreview content 200) = true ∧
        (createContentPreview content 200).length ≤ 203 ∧ 200 < content.length) := by
    by_cases hlen : content.length ≤ 200
    · left
      refine ⟨?_, hlen⟩
      unfold createContentPreview
      rw [if_neg h, if_pos hlen]
    · right
      have hgt : 200 < content.length := not_le.mp hlen
      have htk : (List.take 200 content).length = 200 := by
        rw [List.length_take]; omega
      have hp := rfindChar_lt_length (List.take 200 content) '.'
      have hs := rfindChar_lt_length (List.take 200 content) ' '
      rw [htk] at hp hs
      unfold createContentPreview
      rw [if_neg h, if_neg hlen]
      dsimp only
      split_ifs with h1 h2
      · refine ⟨endsWithStr_append _ _, ?_, hgt⟩
        rw [List.length_append, List.length_take]
        have : "...".toList.length = 3 := rfl
        rw [this]
        omega
      · refine ⟨endsWithStr_append _ _, ?_, hgt⟩
        rw [List.length_append, List.length_take]
        have : "...".toList.length = 3 := rfl
        rw [this]
        omega
      · refine ⟨endsWithStr_append _ _, ?_, hgt⟩
        rw [List.length_append, List.length_take]
        have : "...".toList.length = 3 := rfl
        rw [this]
        omega
  refine ⟨key, ?_, ?_⟩
  · by_cases hcl : 120 < (collapseWsRuns (stripStr content)).length
    · right
      unfold createPreview
      rw [if_neg h, if_pos hcl]
      refine ⟨endsWithStr_append _ _, ?_⟩
      rw [List.length_append, List.length_take]
      have : "...".toList.length = 3 := rfl
      rw [this]
      omega
    · left
      unfold createPreview
      rw [if_neg h, if_neg hcl]
      exact ⟨rfl, not_lt.mp hcl⟩
  · intro h203
    rcases key with ⟨_, hle⟩ | ⟨_, hle, _⟩
    · omega
    · omega

/-- C1 witness: the amended preview theorem applied to a short content. -/
theorem content_preview_bounded_witness :
    "hello".toList ≠ ([] : Str) ∧
    (((createContentPreview "hello".toList 200 = "hello".toList ∧
        ("hello".toList : Str).length ≤ 200) ∨
      (endsWithStr "...".toList (createContentPreview "hello".toList 200) = true ∧
        (createContentPreview "hello".toList 200).length ≤ 203 ∧
        200 < ("hello".toList : Str).length)) ∧
    ((createPreview "hello".toList 120 = collapseWsRuns (stripStr "hello".toList) ∧
        (createPreview "hello".toList 120).length ≤ 120) ∨
      (endsWithStr "...".toList (createPreview "hello".toList 120) = true ∧
        (createPreview "hello".toList 120).length ≤ 123)) ∧
    (203 < ("hello".toList : Str).length →
      (createContentPreview "hello".toList 200).length < ("hello".toList : Str).length)) :=
  ⟨by decide, content_preview_bounded "hello".toList (by decide)⟩

/-! ## Segmentation invariants -/

lemma flushPending_content (cur : Option PendingSection) (stext : List Str)
    (acc : List PSection) (h : ∀ s ∈ acc, 50 < s.content.length) :
    ∀ s ∈ flushPending cur stext acc, 50 < s.content.length := by
  intro s hs
  unfold flushPending at hs
  match cur, stext with
  | none, _ => exact h s hs
  | some c, [] => exact h s hs
  | some c, t :: ts =>
    dsimp only at hs
    split_ifs at hs with hlen
    · rcases List.mem_append.mp hs with hmem | hmem
      · exact h s hmem
      · rcases List.mem_singleton.mp hmem with rfl
        exact hlen
    · exact h s hs

lemma identifyGo_content (pageNum : Nat) : ∀ (lines : List Str) (i : Nat)
    (cur : Option PendingSection) (stext : List Str) (acc : List PSection),
    (∀ s ∈ acc, 50 < s.content.length) →
    ∀ s ∈ identifyGo pageNum lines i cur stext acc, 50 < s.content.length := by
  intro lines
  induction lines with
  | nil =>
    intro i cur stext acc hacc s hs
    exact flushPending_content cur stext acc hacc s hs
  | cons rawLine rest ih =>
    intro i cur stext acc hacc s hs
    cases cur with
    | some c =>
      simp only [identifyGo] at hs
      split_ifs at hs with hblank hhead
      · exact ih _ _ _ _ hacc s hs
      · exact ih _ _ _ _ (flushPending_content _ _ _ hacc) s hs
      · exact ih _ _ _ _ hacc s hs
    | none =>
      simp only [identifyGo] at hs
      split_ifs at hs with hblank hhead haccnil
      · exact ih _ _ _ _ hacc s hs
      · exact ih _ _ _ _ (flushPending_content _ _ _ hacc) s hs
      · exact ih _ _ _ _ hacc s hs
      · exact ih _ _ _ _ hacc s hs

lemma finalFlushMain_text (cur : MSection) :
    ∀ s ∈ finalFlushMain cur, s.text ≠ [] := by
  intro s hs
  unfold finalFlushMain at hs
  split_ifs at hs with h1 h2
  · exact absurd hs (List.not_mem_nil s)
  · rcases List.mem_singleton.mp hs with rfl
    exact h1
  · rcases List.mem_singleton.mp hs with rfl
    exact h1

lemma extractPageGo_text (pageNum : Nat) (bigWords : List Str) :
    ∀ (lines : List Str) (cur : MSection),
      ∀ s ∈ extractPageGo pageNum bigWords lines cur, s.text ≠ [] := by
  intro lines
  induction lines with
  | nil => intro cur s hs; exact finalFlushMain_text cur s hs
  | cons rawLine rest ih =>
    intro cur s hs
    rw [extractPageGo] at hs
    split_ifs at hs with htitle hne
    · rcases List.mem_append.mp hs with hmem | hmem
      · rcases List.mem_singleton.mp hmem with rfl
        exact hne
      · exact ih _ s hmem
    · rw [List.nil_append] at hs
      exact ih _ s hs
    · exact ih _ s hs

/-- C4 counterexample: main.py's segmenter emits a section whose content is
just `"hi "` (3 characters) — far below the 50-character substantiveness
threshold the other segmenter enforces — because it only checks that the
accumulated text is non-empty. -/
theorem main_segmenter_no_min_length :
    extractSectionsPage "hi".toList [] 1 =
      [{ title := "hi".toList, text := "hi ".toList, page := 1 }] ∧
    ((extractSectionsPage "hi".toList [] 1).all
      (fun s => decide (50 < s.text.length))) = false := by
  constructor
  · decide
  · decide

/-- C4 amended: `PDFProcessor._identify_sections` only emits sections whose
content exceeds 50 characters (shorter ones are silently discarded, and
empty content is never emitted); main.py's `extract_sections_from_pdf`
enforces no minimum length — it emits every section with non-empty
accumulated text. -/
theorem segmentation_min_length (text : Str) (pageNum : Nat)
    (pages : List (Str × List Str)) (s : PSection) (m : MSection)
    (hs : s ∈ identifySections text pageNum)
    (hm : m ∈ extractSectionsFromPdf pages) :
    50 < s.content.length ∧ m.text ≠ [] := by
  constructor
  · exact identifyGo_content pageNum _ 0 none [] []
      (fun u hu => absurd hu (List.not_mem_nil u)) s hs
  · rw [extractSectionsFromPdf] at hm
    rcases List.mem_flatMap.mp hm with ⟨p, _, hmem⟩
    rw [extractSectionsPage] at hmem
    split_ifs at hmem
    · exact absurd hmem (List.not_mem_nil m)
    · exact extractPageGo_text _ _ _ _ m hmem

/-- C4 witness: the amended theorem applied to a concrete page with one
heading and one substantial body line. -/
theorem segmentation_min_length_witness :
    (({ title := "Introduction".toList, page := 1,
        content := "the quick, brown fox jumps over the lazy dog near the river bank, okay".toList,
        start_line := 0 } : PSection) ∈
      identifySections
        "Introduction\nthe quick, brown fox jumps over the lazy dog near the river bank, okay".toList 1 ∧
    ({ title := "hi".toList, text := "hi ".toList, page := 1 } : MSection) ∈
      extractSectionsFromPdf [("hi".toList, [])]) ∧
    (50 < ("the quick, brown fox jumps over the lazy dog near the river bank, okay".toList : Str).length ∧
      ("hi ".toList : Str) ≠ []) :=
  ⟨⟨by decide, by decide⟩,
    segmentation_min_length
      "Introduction\nthe quick, brown fox jumps over the lazy dog near the river bank, okay".toList 1
      [("hi".toList, [])]
      { title := "Introduction".toList, page := 1,
        content := "the quick, brown fox jumps over the lazy dog near the river bank, okay".toList,
        start_line := 0 }
      { title := "hi".toList, text := "hi ".toList, page := 1 }
      (by decide) (by decide)⟩

/-! ## Title derivation for the final flushed section -/

/-- C9 counterexample: a page whose body text precedes the first detected
heading emits that body as a section titled with the generic placeholder
"Untitled" — the first-words fallback only runs at end of page, not when a
heading flushes the open section. -/
theorem untitled_section_with_body_text :
    extractSectionsPage "some body words here\nINTRODUCTION".toList [] 1 =
      [{ title := "Untitled".toList, text := "some body words here ".toList, page := 1 }] ∧
    ("some body words here ".toList : Str) ≠ [] := by
  constructor
  · decide
  · decide

lemma extractPageGo_no_heading (pageNum : Nat) (bigWords : List Str) :
    ∀ (lines : List Str) (cur : MSection),
      (∀ l ∈ lines, mainIsTitle (stripStr l) bigWords = false) →
      extractPageGo pageNum bigWords lines cur =
        finalFlushMain { cur with
          text := cur.text ++ lines.flatMap (fun l => l ++ [' ']) } := by
  intro lines
  induction lines with
  | nil =>
    intro cur _
    cases cur
    simp [extractPageGo]
  | cons rawLine rest ih =>
    intro cur h
    have hh : mainIsTitle (stripStr rawLine) bigWords = false :=
      h rawLine (List.mem_cons_self _ _)
    rw [extractPageGo, if_neg (by rw [hh]; exact Bool.false_ne_true)]
    rw [ih _ (fun l hl => h l (List.mem_cons_of_mem _ hl))]
    congr 1
    simp [List.append_assoc]

/-- C9 amended: when no line of a page is classified as a heading, every
section emitted for the page (there is at most one, flushed at end of
page) carries the title derived from the first five words of its
accumulated content — "Untitled Section" when the content is
whitespace-only — instead of the "Untitled" placeholder it accumulated
under; a section flushed mid-page by a detected heading, however, keeps
the "Untitled" placeholder even when body text exists. -/
theorem final_flush_derives_title (text : Str) (bigWords : List Str) (pageNum : Nat)
    (h : ∀ l ∈ text.splitOnP (fun c => c = '\n'),
      mainIsTitle (stripStr l) bigWords = false) :
    ∀ s ∈ extractSectionsPage text bigWords pageNum,
      s.title = firstWordsTitle s.text := by
  intro s hs
  rw [extractSectionsPage] at hs
  split_ifs at hs with hempty
  · exact absurd hs (List.not_mem_nil s)
  · rw [extractPageGo_no_heading pageNum bigWords _ _ h] at hs
    rw [finalFlushMain] at hs
    split_ifs at hs with h1 h2
    · exact absurd hs (List.not_mem_nil s)
    · rcases List.mem_singleton.mp hs with rfl
      rfl
    · exact absurd rfl h2

/-- C9 witness: the amended theorem applied to a heading-free page. -/
theorem final_flush_derives_title_witness :
    (∀ l ∈ ("hello world line one\nand more body".toList : Str).splitOnP (fun c => c = '\n'),
      mainIsTitle (stripStr l) [] = false) ∧
    (∀ s ∈ extractSectionsPage "hello world line one\nand more body".toList [] 1,
      s.title = firstWordsTitle s.text) :=
  ⟨by decide, final_flush_derives_title "hello world line one\nand more body".toList [] 1 (by decide)⟩

/-! ## Behaviour of the run when every document fails -/

/-- C7 counterexample: with a single document that yields no sections (its
only page decodes to empty text), the run still returns a successful
output whose section lists are empty — it does not report failure. -/
theorem empty_run_reports_success :
    extractSectionsFromPdf [(([] : Str), ([] : List Str))] = [] ∧
    mainRun 1 [("doc1.pdf".toList, [([], [])])] "researcher".toList "find".toList =
      some { input_documents := ["doc1.pdf".toList], persona := "researcher".toList,
             job := "find".toList, extracted_sections := [],
             subsection_analysis := [] } := by
  constructor
  · decide
  · decide

/-- C7 amended: when every input document fails to yield sections, the run
does not report failure — it produces a successful output with empty
`extracted_sections` and `subsection_analysis`; the only failure the main
entry point reports is a config-JSON count different from one. -/
theorem run_succeeds_when_all_documents_fail
    (pdfDocs : List (Str × List (Str × List Str))) (persona job : Str)
    (h : ∀ d ∈ pdfDocs, extractSectionsFromPdf d.2 = []) :
    mainRun 1 pdfDocs persona job =
      some { input_documents := pdfDocs.map (fun d => d.1), persona := persona,
             job := job, extracted_sections := [], subsection_analysis := [] } ∧
    (∀ jsonCount, jsonCount ≠ 1 → mainRun jsonCount pdfDocs persona job = none) := by
  constructor
  · have hscored : (pdfDocs.map (fun d => (d.1, extractSectionsFromPdf d.2))).flatMap
        (fun doc => doc.2.map (fun sec =>
          ({ document := doc.1, section_title := sec.title, importance_rank := 0,
             page_number := sec.page, score := scoreSectionRelevance sec.text persona job,
             text := sec.text } : ScoredFull))) = [] := by
      rw [List.flatMap_eq_nil_iff]
      intro x hx
      rcases List.mem_map.mp hx with ⟨d, hd, rfl⟩
      rw [h d hd]
      rfl
    rw [mainRun, if_neg (by simp)]
    simp only [mainRankSections, hscored]
    rfl
  · intro jsonCount hjc
    rw [mainRun, if_pos hjc]

/-- C7 witness: the amended theorem applied to one failing document. -/
theorem run_succeeds_when_all_documents_fail_witness :
    (∀ d ∈ [(("a.pdf".toList : Str), [(([] : Str), ([] : List Str))])],
      extractSectionsFromPdf d.2 = []) ∧
    (mainRun 1 [("a.pdf".toList, [([], [])])] "p".toList "j".toList =
      some { input_documents := [("a.pdf".toList : Str)], persona := "p".toList,
             job := "j".toList, extracted_sections := [],
             subsection_analysis := [] } ∧
    (∀ jsonCount, jsonCount ≠ 1 →
      mainRun jsonCount [("a.pdf".toList, [([], [])])] "p".toList "j".toList = none)) := by
  refine ⟨by decide, ?_⟩
  have := run_succeeds_when_all_documents_fail
    [("a.pdf".toList, [([], [])])] "p".toList "j".toList (by decide)
  exact this
